import Mathlib

/-
  Verification development for the nativefun/swap repository.

  The announcements API route (src/app/api/announcements/route.ts) is embedded
  as a pure function from an environment (the values returned by the external
  Redis / Supabase / webhook calls) to a response together with a trace of the
  external effects it performs.  The swap form (src/components/frame/swap.tsx)
  and the balance hooks (src/lib/hooks/useTokenBalance.ts) are embedded as pure
  functions on the data they consume.  JavaScript truthiness is modelled
  faithfully: `!x` is true for `null`/`undefined` and for the number 0, and
  `x || d` falls back to `d` when `x` is absent, 0 or the empty string.
  JavaScript numeric arithmetic is modelled exactly over ℚ.
-/

namespace NativeSwap

/-- A row of the Supabase announcements table, as consumed by the route. -/
structure Announcement where
  id : Nat
  title : String
  text : String
  deriving DecidableEq, Repr

/-- The cached notification token for a fid, as returned by
`getCachedNotificationToken` (a token plus the client webhook url). -/
structure NotificationToken where
  token : String
  url : String
  deriving DecidableEq, Repr

/-- The `result` object of a Frames v2 webhook response body.  Each field is
optional, matching the `successfulTokens?.length > 0` style accesses. -/
structure WebhookResult where
  successfulTokens : Option (List String)
  invalidTokens : Option (List String)
  rateLimitedTokens : Option (List String)
  deriving DecidableEq, Repr

/-- Outcome of the `fetch` to the client webhook url: either the fetch (or the
body parse) throws, or a response arrives with an `ok` flag and an optional
`result` field in its JSON body. -/
inductive WebhookOutcome
  | throwErr
  | resp (ok : Bool) (result : Option WebhookResult)
  deriving DecidableEq, Repr

/-- The environment of one POST /api/announcements request: the values the
external calls would return.  `lastSeenId` is `getLastSeenAnnouncementId fid`,
`latest` is `getLatestAnnouncement()`, `cachedToken` is
`getCachedNotificationToken fid`, `webhook` is the webhook fetch outcome, and
`removalThrows` says whether the token-removal calls inside
`removeInvalidToken` throw (the route swallows such an error). -/
structure Env where
  lastSeenId : Option Nat
  latest : Announcement
  cachedToken : Option NotificationToken
  webhook : WebhookOutcome
  removalThrows : Bool
  publicUrl : String
  deriving DecidableEq, Repr

/-- The JSON body POSTed to the client webhook url. -/
structure NotificationPayload where
  notificationId : String
  title : String
  body : String
  targetUrl : String
  tokens : List String
  deriving DecidableEq, Repr

/-- External effects performed by the route, in order. -/
inductive Effect
  | readLastSeen (fid : Int)
  | readLatest
  | readCachedToken (fid : Int)
  | webhookPost (url : String) (payload : NotificationPayload)
  | removeTokenSupabase (fid : Int)
  | removeTokenRedis (fid : Int)
  | setLastSeen (fid : Int) (id : Nat)
  deriving DecidableEq, Repr

/-- JavaScript `xs?.length > 0` for an optional array `xs`: false when the
array is absent (`undefined > 0` is false), otherwise a length check. -/
def optLenPos : Option (List String) → Bool
  | none => false
  | some l => 0 < l.length

/-- The `Promise.all` of the two token-removal calls inside
`removeInvalidToken`; it throws exactly when the environment says so. -/
def removalAttempt (env : Env) : Except String Unit :=
  if env.removalThrows then Except.error "removal failed" else Except.ok ()

/-- `removeInvalidToken fid token` from the route: attempts to remove the
user's notification token from both Supabase and Redis, catching (and merely
logging) any error, so it never propagates one.  The `token` argument is only
used in the source for logging. -/
def removeInvalidToken (env : Env) (fid : Int) (_token : String) : List Effect :=
  match removalAttempt env with
  | Except.ok _ => [Effect.removeTokenSupabase fid, Effect.removeTokenRedis fid]
  | Except.error _ => [Effect.removeTokenSupabase fid, Effect.removeTokenRedis fid]

/-- The body `JSON.stringify`ed into the webhook POST by
`sendAnnouncementNotification`. -/
def notificationPayload (env : Env) (token : String) (announcement : Announcement) :
    NotificationPayload :=
  { notificationId := "announcement:" ++ toString announcement.id
  , title := announcement.title
  , body := announcement.text
  , targetUrl := env.publicUrl
  , tokens := [token] }

/-- Result of `sendAnnouncementNotification`: the function either returns a
boolean or throws the `Rate limited` error (every other error is caught and
turned into `false`). -/
inductive SendOutcome
  | ok (success : Bool)
  | rateLimited
  deriving DecidableEq, Repr

/-- `sendAnnouncementNotification fid announcement` from the route, as a pure
function of the environment, returning its outcome and the trace of external
effects it performs. -/
def sendAnnouncementNotification (env : Env) (fid : Int) (announcement : Announcement) :
    SendOutcome × List Effect :=
  match env.cachedToken with
  | none => (SendOutcome.ok false, [Effect.readCachedToken fid])
  | some cached =>
    let post : Effect :=
      Effect.webhookPost cached.url (notificationPayload env cached.token announcement)
    match env.webhook with
    | WebhookOutcome.throwErr => (SendOutcome.ok false, [Effect.readCachedToken fid, post])
    | WebhookOutcome.resp ok result =>
      if !ok then (SendOutcome.ok false, [Effect.readCachedToken fid, post])
      else
        match result with
        | none => (SendOutcome.ok false, [Effect.readCachedToken fid, post])
        | some r =>
          let cleanup : List Effect :=
            if optLenPos r.invalidTokens then
              (r.invalidTokens.getD []).flatMap (fun t => removeInvalidToken env fid t)
            else []
          if optLenPos r.successfulTokens then
            (SendOutcome.ok true, [Effect.readCachedToken fid, post] ++ cleanup)
          else if optLenPos r.rateLimitedTokens then
            (SendOutcome.rateLimited, [Effect.readCachedToken fid, post] ++ cleanup)
          else
            (SendOutcome.ok false, [Effect.readCachedToken fid, post] ++ cleanup)

/-- A JSON value, enough to model the request body seen by `safeParse`. -/
inductive Json
  | null
  | bool (b : Bool)
  | num (n : Int)
  | str (s : String)
  | arr (elems : List Json)
  | obj (fields : List (String × Json))

/-- First binding of a key in a JSON object. -/
def lookupField : List (String × Json) → String → Option Json
  | [], _ => none
  | (k, v) :: rest, key => if k = key then some v else lookupField rest key

/-- `announcementRequestSchema.safeParse`: the body must be a JSON object whose
`fid` field is a number; on success the parsed fid is returned. -/
def announcementRequestSchema : Json → Option Int
  | Json.obj fields =>
    match lookupField fields "fid" with
    | some (Json.num n) => some n
    | _ => none
  | _ => none

/-- The request body of a POST: either `request.json()` throws (not JSON), or
it yields a JSON value. -/
inductive RequestBody
  | invalidJson
  | jsonBody (v : Json)

/-- The JSON body of the route's non-error responses: `success`, an optional
`error` message, the (pre-request) `lastSeenId` and the `latestAnnouncement`. -/
structure StatusBody where
  success : Bool
  error : Option String
  lastSeenId : Option Nat
  latestAnnouncement : Announcement
  deriving DecidableEq, Repr

/-- The route's response: the 400 validation response (whose body carries
`success: false` and the zod errors), a JSON status body with an HTTP status,
or the plain 500 internal-error response. -/
inductive RouteResponse
  | validationError (status : Nat)
  | statusJson (status : Nat) (body : StatusBody)
  | internalError (status : Nat)
  deriving DecidableEq, Repr

/-- The route's guard `!lastSeenId || lastSeenId < latestAnnouncement.id`.
Note that in JavaScript `!0` is true, so a stored id of 0 also passes. -/
def newAnnouncementCheck (lastSeenId : Option Nat) (latestId : Nat) : Bool :=
  match lastSeenId with
  | none => true
  | some n => n == 0 || n < latestId

/-- `POST /api/announcements` as a pure function of the environment and the
request body, returning the response and the ordered trace of external
effects. -/
def POST (env : Env) (req : RequestBody) : RouteResponse × List Effect :=
  match req with
  | RequestBody.invalidJson => (RouteResponse.internalError 500, [])
  | RequestBody.jsonBody v =>
    match announcementRequestSchema v with
    | none => (RouteResponse.validationError 400, [])
    | some fid =>
      let pre : List Effect := [Effect.readLastSeen fid, Effect.readLatest]
      let okBody : StatusBody :=
        { success := true, error := none
        , lastSeenId := env.lastSeenId, latestAnnouncement := env.latest }
      if newAnnouncementCheck env.lastSeenId env.latest.id then
        match sendAnnouncementNotification env fid env.latest with
        | (SendOutcome.rateLimited, es) =>
          (RouteResponse.statusJson 429
            { success := false, error := some "Rate limited. Please try again later."
            , lastSeenId := env.lastSeenId, latestAnnouncement := env.latest }, pre ++ es)
        | (SendOutcome.ok true, es) =>
          (RouteResponse.statusJson 200 okBody,
            pre ++ es ++ [Effect.setLastSeen fid env.latest.id])
        | (SendOutcome.ok false, es) =>
          (RouteResponse.statusJson 200 okBody, pre ++ es)
      else
        (RouteResponse.statusJson 200 okBody, pre)

/-- The stored last-seen id after the request: the last `setLastSeen` write in
the trace, or the previous value when no write occurred. -/
def lastSeenAfter (env : Env) (req : RequestBody) : Option Nat :=
  (POST env req).2.foldl
    (fun acc e =>
      match e with
      | Effect.setLastSeen _ i => some i
      | _ => acc)
    env.lastSeenId

/-- Whether the webhook leg of the request reports a successful delivery: a
token was cached, the response was ok, its body had a `result`, and the
`successfulTokens` array was non-empty. -/
def deliverySucceeded (env : Env) : Bool :=
  match env.cachedToken, env.webhook with
  | some _, WebhookOutcome.resp true (some r) => optLenPos r.successfulTokens
  | _, _ => false

/-- Number of webhook POSTs in an effect trace. -/
def countWebhookPosts (es : List Effect) : Nat :=
  es.countP (fun e =>
    match e with
    | Effect.webhookPost _ _ => true
    | _ => false)

/-- The two endpoints the swap form's debounce effect can call. -/
inductive SwapApiCall
  | fetchQuote
  | fetchPrice
  deriving DecidableEq, Repr

/-- The debounce effect of the swap form (swap.tsx): a 200 ms timer whose body,
when the sell amount is non-empty, invokes `fetchQuote(params)` and then
`fetchPrice(params)`.  The result is the timer delay in milliseconds together
with the calls made, in order.  `isFinalized` is a dependency of the effect but
is never read by its body. -/
def swapDebounceEffect (sellAmount : String) (_isFinalized : Bool) :
    Nat × List SwapApiCall :=
  (200, if sellAmount ≠ "" then [SwapApiCall.fetchQuote, SwapApiCall.fetchPrice] else [])

/-- The `transaction` object of a 0x quote response, as read by
`executeSwap`. -/
structure QuoteTransaction where
  gas : Option Nat
  toAddr : String
  data : String
  value : Nat
  deriving DecidableEq, Repr

/-- A 0x quote response (the part `executeSwap` consumes). -/
structure QuoteResponse where
  transaction : QuoteTransaction
  deriving DecidableEq, Repr

/-- The argument passed to wagmi's `sendTransaction`. -/
structure TxRequest where
  gas : Option Nat
  toAddr : String
  data : String
  value : Nat
  deriving DecidableEq, Repr

/-- `executeSwap` from the swap form: calls `sendTransaction` exactly when a
quote is present; the `gas` field is forwarded only when truthy
(`quote.transaction.gas ? BigInt(...) : undefined`). -/
def executeSwap (quote : Option QuoteResponse) : Option TxRequest :=
  match quote with
  | none => none
  | some q =>
    some
      { gas :=
          match q.transaction.gas with
          | some g => if g = 0 then none else some g
          | none => none
      , toAddr := q.transaction.toAddr
      , data := q.transaction.data
      , value := q.transaction.value }

/-- JavaScript `x || d` for an optional number: the default applies when the
value is absent or 0 (0 is falsy). -/
def jsOrDefault (x : Option Nat) (d : Nat) : Nat :=
  match x with
  | none => d
  | some n => if n = 0 then d else n

/-- JavaScript `x || d` for an optional string: the default applies when the
value is absent or empty. -/
def jsOrStr (x : Option String) (d : String) : String :=
  match x with
  | none => d
  | some s => if s = "" then d else s

/-- JavaScript truthiness of an optional string (`!address`): false when
absent or empty. -/
def jsTruthyStr : Option String → Bool
  | none => false
  | some s => s ≠ ""

/-- Alchemy token metadata as consumed by `useTokenBalance`; every field is
nullable. -/
structure TokenMetadata where
  symbol : Option String
  name : Option String
  logo : Option String
  decimals : Option Nat
  deriving DecidableEq, Repr

/-- The `TokenBalance` value the hook stores, with JavaScript numbers modelled
exactly over ℚ (the raw balance string is modelled by the integer it
denotes). -/
structure TokenBalanceModel where
  token_address : String
  symbol : String
  name : String
  logo : String
  thumbnail : String
  decimals : Nat
  balance : Nat
  balance_formatted : ℚ
  usd_price : ℚ
  usd_price_24hr_percent_change : ℚ
  usd_value : ℚ
  deriving DecidableEq, Repr

/-- The `fetchBalance` body of `useTokenBalance`: given the wallet address, the
token address, the first entry of the fetched `tokenBalances` array (absent, or
present with a nullable raw balance) and the token metadata, it returns the
balance the hook stores — or `none` when no fetch is performed (falsy address)
or `setBalance` is never called (no array entry). -/
def useTokenBalance (address : Option String) (tokenAddress : String)
    (rawEntry : Option (Option Nat)) (metadata : TokenMetadata) :
    Option TokenBalanceModel :=
  if jsTruthyStr address then
    match rawEntry with
    | none => none
    | some rawBalance =>
      let balance_formatted : ℚ :=
        match rawBalance with
        | some raw => (raw : ℚ) / (10 : ℚ) ^ (jsOrDefault metadata.decimals 18)
        | none => 0
      some
        { token_address := tokenAddress
        , symbol := jsOrStr metadata.symbol ""
        , name := jsOrStr metadata.name ""
        , logo := jsOrStr metadata.logo ""
        , thumbnail := jsOrStr metadata.logo ""
        , decimals := jsOrDefault metadata.decimals 18
        , balance := rawBalance.getD 0
        , balance_formatted := balance_formatted
        , usd_price := 0
        , usd_price_24hr_percent_change := 0
        , usd_value := 0 }
  else none

/-- The `EthBalance` value `useEthBalance` stores. -/
structure EthBalanceModel where
  balance : Nat
  balance_formatted : ℚ
  deriving DecidableEq, Repr

/-- The `fetchBalance` body of `useEthBalance`: with a truthy address it stores
the raw wei balance and `Number(rawBalance) / 1e18`; otherwise no fetch is
performed and the balance stays `none`. -/
def useEthBalance (address : Option String) (rawBalance : Nat) :
    Option EthBalanceModel :=
  if jsTruthyStr address then
    some
      { balance := rawBalance
      , balance_formatted := (rawBalance : ℚ) / (10 : ℚ) ^ (18 : Nat) }
  else none

/-- The cleanup effects of the invalid-token branch of
`sendAnnouncementNotification`, as a function of the environment. -/
def cleanupEffects (env : Env) (fid : Int) : List Effect :=
  match env.webhook with
  | WebhookOutcome.resp true (some r) =>
    if optLenPos r.invalidTokens then
      (r.invalidTokens.getD []).flatMap (fun t => removeInvalidToken env fid t)
    else []
  | _ => []

/-- Whether the send throws the `Rate limited` error: a parsed ok response with
no successful token but a non-empty `rateLimitedTokens` array. -/
def rateLimitedPath (env : Env) : Bool :=
  match env.cachedToken, env.webhook with
  | some _, WebhookOutcome.resp true (some r) =>
    !optLenPos r.successfulTokens && optLenPos r.rateLimitedTokens
  | _, _ => false

/-- The body of the route's 200 response. -/
def okBody (env : Env) : StatusBody :=
  { success := true, error := none
  , lastSeenId := env.lastSeenId, latestAnnouncement := env.latest }

/-- The body of the route's 429 response. -/
def rateBody (env : Env) : StatusBody :=
  { success := false, error := some "Rate limited. Please try again later."
  , lastSeenId := env.lastSeenId, latestAnnouncement := env.latest }

/-- The effect trace of one `sendAnnouncementNotification` call, as a function
of the environment. -/
def sendTraceSpec (env : Env) (fid : Int) : List Effect :=
  match env.cachedToken with
  | none => [Effect.readCachedToken fid]
  | some cached =>
    [Effect.readCachedToken fid,
     Effect.webhookPost cached.url (notificationPayload env cached.token env.latest)]
      ++ cleanupEffects env fid

/-- Closed-form description of the route on a request that parses to `fid`:
derived from the source; related to `POST` by the lemma `POST_eq` below. -/
def POSTspec (env : Env) (fid : Int) : RouteResponse × List Effect :=
  if newAnnouncementCheck env.lastSeenId env.latest.id then
    if deliverySucceeded env then
      (RouteResponse.statusJson 200 (okBody env),
        [Effect.readLastSeen fid, Effect.readLatest] ++ sendTraceSpec env fid
          ++ [Effect.setLastSeen fid env.latest.id])
    else if rateLimitedPath env then
      (RouteResponse.statusJson 429 (rateBody env),
        [Effect.readLastSeen fid, Effect.readLatest] ++ sendTraceSpec env fid)
    else
      (RouteResponse.statusJson 200 (okBody env),
        [Effect.readLastSeen fid, Effect.readLatest] ++ sendTraceSpec env fid)
  else
    (RouteResponse.statusJson 200 (okBody env),
      [Effect.readLastSeen fid, Effect.readLatest])

/-- A concrete environment in which the cached last-seen id is 0 and the latest
announcement id is also 0: the JS guard `!lastSeenId` treats the stored 0 as
absent, so a notification is sent although nothing is new. -/
def envZero : Env :=
  { lastSeenId := some 0
  , latest := { id := 0, title := "Welcome", text := "Hello" }
  , cachedToken := some { token := "tok", url := "wh" }
  , webhook := WebhookOutcome.resp true
      (some { successfulTokens := some ["tok"]
            , invalidTokens := none
            , rateLimitedTokens := none })
  , removalThrows := false
  , publicUrl := "app" }

/-- A request body carrying the numeric fid 1. -/
def reqFid1 : RequestBody := RequestBody.jsonBody (Json.obj [("fid", Json.num 1)])

/-- A concrete environment in which the user has already seen the latest
announcement (stored id 5, latest id 3). -/
def envSeen : Env :=
  { lastSeenId := some 5
  , latest := { id := 3, title := "Old", text := "News" }
  , cachedToken := some { token := "tok", url := "wh" }
  , webhook := WebhookOutcome.resp true
      (some { successfulTokens := some ["tok"]
            , invalidTokens := none
            , rateLimitedTokens := none })
  , removalThrows := false
  , publicUrl := "app" }

/-- A concrete environment whose webhook response reports only a rate-limited
token. -/
def envRate : Env :=
  { lastSeenId := none
  , latest := { id := 2, title := "New", text := "Body" }
  , cachedToken := some { token := "tok", url := "wh" }
  , webhook := WebhookOutcome.resp true
      (some { successfulTokens := some []
            , invalidTokens := none
            , rateLimitedTokens := some ["tok"] })
  , removalThrows := false
  , publicUrl := "app" }

/-- A concrete environment whose webhook response reports an invalid token. -/
def envInvalid : Env :=
  { lastSeenId := none
  , latest := { id := 3, title := "New", text := "Body" }
  , cachedToken := some { token := "tok", url := "wh" }
  , webhook := WebhookOutcome.resp true
      (some { successfulTokens := none
            , invalidTokens := some ["bad"]
            , rateLimitedTokens := none })
  , removalThrows := false
  , publicUrl := "app" }

/-- Token metadata reporting 0 decimals (a falsy number in JavaScript). -/
def mdZeroDecimals : TokenMetadata :=
  { symbol := some "TKN", name := some "Token", logo := none, decimals := some 0 }

/-- A concrete 0x quote response. -/
def quoteEx : QuoteResponse :=
  { transaction := { gas := some 21000, toAddr := "0xrouter", data := "0xdead", value := 5 } }

/-- The route's guard passes exactly when the stored id is absent, 0 (falsy),
or strictly below the latest id. -/
theorem newAnnouncementCheck_iff (lastSeenId : Option Nat) (latestId : Nat) :
    newAnnouncementCheck lastSeenId latestId = true ↔
      (lastSeenId = none ∨ lastSeenId = some 0 ∨
        ∃ n, lastSeenId = some n ∧ n < latestId) := by
  cases lastSeenId with
  | none => simp [newAnnouncementCheck]
  | some n => simp [newAnnouncementCheck]

/-- `removeInvalidToken` always performs both removal attempts, whether or not
they fail. -/
theorem removeInvalidToken_eq (env : Env) (fid : Int) (t : String) :
    removeInvalidToken env fid t =
      [Effect.removeTokenSupabase fid, Effect.removeTokenRedis fid] := by
  unfold removeInvalidToken removalAttempt
  by_cases h : env.removalThrows = true <;> simp [h]

/-- The cleanup effects are token removals only. -/
theorem mem_cleanupEffects (env : Env) (fid : Int) (e : Effect) :
    e ∈ cleanupEffects env fid →
      e = Effect.removeTokenSupabase fid ∨ e = Effect.removeTokenRedis fid := by
  unfold cleanupEffects
  cases env.webhook with
  | throwErr => intro h; simp at h
  | resp ok result =>
    cases ok with
    | false => intro h; simp at h
    | true =>
      cases result with
      | none => intro h; simp at h
      | some r =>
        intro h
        by_cases hi : optLenPos r.invalidTokens = true
        · simp only [hi, if_true, List.mem_flatMap, removeInvalidToken_eq] at h
          obtain ⟨t, _, hmem⟩ := h
          simpa using hmem
        · simp [hi] at h

/-- Trace of one `sendAnnouncementNotification` call. -/
theorem send_trace (env : Env) (fid : Int) (a : Announcement) :
    (sendAnnouncementNotification env fid a).2 =
      match env.cachedToken with
      | none => [Effect.readCachedToken fid]
      | some cached =>
        [Effect.readCachedToken fid,
         Effect.webhookPost cached.url (notificationPayload env cached.token a)]
          ++ cleanupEffects env fid := by
  cases htok : env.cachedToken with
  | none => simp [sendAnnouncementNotification, htok]
  | some cached =>
    cases hwh : env.webhook with
    | throwErr => simp [sendAnnouncementNotification, cleanupEffects, htok, hwh]
    | resp ok result =>
      cases ok with
      | false => simp [sendAnnouncementNotification, cleanupEffects, htok, hwh]
      | true =>
        cases result with
        | none => simp [sendAnnouncementNotification, cleanupEffects, htok, hwh]
        | some r =>
          simp only [sendAnnouncementNotification, cleanupEffects, htok, hwh]
          by_cases hs : optLenPos r.successfulTokens = true <;>
            by_cases hr : optLenPos r.rateLimitedTokens = true <;>
              simp [hs, hr]

/-- Outcome of one `sendAnnouncementNotification` call. -/
theorem send_fst (env : Env) (fid : Int) (a : Announcement) :
    (sendAnnouncementNotification env fid a).1 =
      if deliverySucceeded env then SendOutcome.ok true
      else if rateLimitedPath env then SendOutcome.rateLimited
      else SendOutcome.ok false := by
  cases htok : env.cachedToken with
  | none =>
    simp [sendAnnouncementNotification, deliverySucceeded, rateLimitedPath, htok]
  | some cached =>
    cases hwh : env.webhook with
    | throwErr =>
      simp [sendAnnouncementNotification, deliverySucceeded, rateLimitedPath, htok, hwh]
    | resp ok result =>
      cases ok with
      | false =>
        simp [sendAnnouncementNotification, deliverySucceeded, rateLimitedPath, htok, hwh]
      | true =>
        cases result with
        | none =>
          simp [sendAnnouncementNotification, deliverySucceeded, rateLimitedPath, htok, hwh]
        | some r =>
          simp only [sendAnnouncementNotification, deliverySucceeded, rateLimitedPath,
            htok, hwh]
          by_cases hs : optLenPos r.successfulTokens = true <;>
            by_cases hr : optLenPos r.rateLimitedTokens = true <;>
              simp [hs, hr]

/-- On a request that parses to `fid`, `POST` equals its closed form. -/
theorem POST_eq (env : Env) (v : Json) (fid : Int)
    (hfid : announcementRequestSchema v = some fid) :
    POST env (RequestBody.jsonBody v) = POSTspec env fid := by
  have ht := send_trace env fid env.latest
  have hf := send_fst env fid env.latest
  cases hsend : sendAnnouncementNotification env fid env.latest with
  | mk out es =>
    rw [hsend] at ht hf
    simp only at ht hf
    unfold POST POSTspec sendTraceSpec
    simp only [hfid, hsend]
    subst ht
    by_cases hck : newAnnouncementCheck env.lastSeenId env.latest.id = true
    · by_cases hd : deliverySucceeded env = true
      · rw [hf]
        simp [hck, hd, okBody]
      · by_cases hr : rateLimitedPath env = true
        · rw [hf]
          simp [hck, hd, hr, okBody, rateBody]
        · rw [hf]
          simp [hck, hd, hr, okBody]
    · simp [hck, okBody]

/-- The trace of the closed form, split by guard and delivery outcome. -/
theorem POSTspec_trace (env : Env) (fid : Int) :
    (POSTspec env fid).2 =
      if newAnnouncementCheck env.lastSeenId env.latest.id then
        [Effect.readLastSeen fid, Effect.readLatest] ++ sendTraceSpec env fid
          ++ (if deliverySucceeded env then [Effect.setLastSeen fid env.latest.id] else [])
      else [Effect.readLastSeen fid, Effect.readLatest] := by
  unfold POSTspec
  by_cases hck : newAnnouncementCheck env.lastSeenId env.latest.id = true <;>
    by_cases hd : deliverySucceeded env = true <;>
      by_cases hr : rateLimitedPath env = true <;>
        simp [hck, hd, hr]

/-- The response of the closed form: 429 exactly on the rate-limited path,
200 with the unchanged body otherwise. -/
theorem POSTspec_fst (env : Env) (fid : Int) :
    (POSTspec env fid).1 =
      if newAnnouncementCheck env.lastSeenId env.latest.id &&
          !deliverySucceeded env && rateLimitedPath env then
        RouteResponse.statusJson 429 (rateBody env)
      else RouteResponse.statusJson 200 (okBody env) := by
  unfold POSTspec
  by_cases hck : newAnnouncementCheck env.lastSeenId env.latest.id = true <;>
    by_cases hd : deliverySucceeded env = true <;>
      by_cases hr : rateLimitedPath env = true <;>
        simp [hck, hd, hr]

/-- Folding the last-seen update over a trace without `setLastSeen` effects
leaves the accumulator unchanged. -/
theorem foldl_lastSeen_no_set :
    ∀ (es : List Effect) (acc : Option Nat),
      (∀ e ∈ es, ∀ g i, e ≠ Effect.setLastSeen g i) →
      es.foldl
        (fun acc e =>
          match e with
          | Effect.setLastSeen _ i => some i
          | _ => acc)
        acc = acc := by
  intro es
  induction es with
  | nil => intro acc _; rfl
  | cons e rest ih =>
    intro acc h
    have h1 : ∀ x ∈ rest, ∀ g i, x ≠ Effect.setLastSeen g i :=
      fun x hx => h x (List.mem_cons_of_mem _ hx)
    cases e
    case setLastSeen g i => exact absurd rfl (h _ (List.mem_cons_self _ _) g i)
    all_goals exact ih _ h1

/-- The send trace never writes the last-seen id. -/
theorem sendTraceSpec_no_set (env : Env) (fid : Int) :
    ∀ e ∈ sendTraceSpec env fid, ∀ g i, e ≠ Effect.setLastSeen g i := by
  intro e
  unfold sendTraceSpec
  cases env.cachedToken with
  | none =>
    intro he g i
    simp at he
    subst he
    simp
  | some cached =>
    intro he g i
    simp at he
    rcases he with he | he | he
    · subst he; simp
    · subst he; simp
    · rcases mem_cleanupEffects env fid e he with h | h <;> subst h <;> simp

/-- The stored last-seen id after a parsed request: it moves to the latest id
exactly when the guard passed and the delivery succeeded. -/
theorem lastSeenAfter_eq (env : Env) (v : Json) (fid : Int)
    (hfid : announcementRequestSchema v = some fid) :
    lastSeenAfter env (RequestBody.jsonBody v) =
      if newAnnouncementCheck env.lastSeenId env.latest.id && deliverySucceeded env
      then some env.latest.id else env.lastSeenId := by
  unfold lastSeenAfter
  rw [POST_eq env v fid hfid, POSTspec_trace]
  have hpre : ∀ e ∈ [Effect.readLastSeen fid, Effect.readLatest],
      ∀ g i, e ≠ Effect.setLastSeen g i := by
    intro e he g i
    simp at he
    rcases he with he | he <;> subst he <;> simp
  by_cases hck : newAnnouncementCheck env.lastSeenId env.latest.id = true
  · by_cases hd : deliverySucceeded env = true
    · simp only [hck, hd, if_true, Bool.and_self]
      rw [List.foldl_append, List.foldl_append]
      rfl
    · have hns : ∀ e ∈ ([Effect.readLastSeen fid, Effect.readLatest]
          ++ sendTraceSpec env fid ++ ([] : List Effect)),
          ∀ g i, e ≠ Effect.setLastSeen g i := by
        intro e he g i
        rcases List.mem_append.mp he with he | he
        · rcases List.mem_append.mp he with he | he
          · exact hpre e he g i
          · exact sendTraceSpec_no_set env fid e he g i
        · simp at he
      simp only [hck, hd, if_true, if_false, Bool.and_false]
      exact foldl_lastSeen_no_set _ _ hns
  · have hck' : newAnnouncementCheck env.lastSeenId env.latest.id = false :=
      Bool.not_eq_true _ ▸ (by simpa using hck)
    simp only [hck', if_false, Bool.false_and]
    exact foldl_lastSeen_no_set _ _ hpre

/-- The cleanup effects contain no webhook POST. -/
theorem countWebhookPosts_cleanup (env : Env) (fid : Int) :
    countWebhookPosts (cleanupEffects env fid) = 0 := by
  unfold countWebhookPosts
  rw [List.countP_eq_zero]
  intro e he
  rcases mem_cleanupEffects env fid e he with h | h <;> subst h <;> simp

/-- One send makes at most one webhook POST. -/
theorem countWebhookPosts_sendTraceSpec (env : Env) (fid : Int) :
    countWebhookPosts (sendTraceSpec env fid) ≤ 1 := by
  unfold sendTraceSpec
  cases env.cachedToken with
  | none => simp [countWebhookPosts]
  | some cached =>
    have h := countWebhookPosts_cleanup env fid
    unfold countWebhookPosts at h ⊢
    simp [List.countP_cons, List.countP_append, h]

/-- The route's response does not depend on whether the token-removal calls
inside `removeInvalidToken` fail: that error is caught and only logged. -/
theorem POST_fst_removalThrows (env : Env) (req : RequestBody) (b : Bool) :
    (POST { env with removalThrows := b } req).1 = (POST env req).1 := by
  cases req with
  | invalidJson => rfl
  | jsonBody v =>
    cases hfid : announcementRequestSchema v with
    | none => simp [POST, hfid]
    | some fid =>
      rw [POST_eq { env with removalThrows := b } v fid hfid,
        POST_eq env v fid hfid, POSTspec_fst, POSTspec_fst]
      rfl

/-- C1 (amended): on a POST /api/announcements request with a numeric fid, a
notification send is attempted if and only if the cached last-seen id is
absent, zero (a falsy value the guard treats like absent), or strictly less
than the latest announcement id; when a last-seen id is present, non-zero and
at least the latest id, no webhook POST occurs and the endpoint returns a 200
success response carrying the unchanged lastSeenId and the latest
announcement. -/
theorem announcements_send_guard (env : Env) (v : Json) (fid : Int)
    (hfid : announcementRequestSchema v = some fid) :
    ((Effect.readCachedToken fid ∈ (POST env (RequestBody.jsonBody v)).2) ↔
      (env.lastSeenId = none ∨ env.lastSeenId = some 0 ∨
        ∃ n, env.lastSeenId = some n ∧ n < env.latest.id)) ∧
    (∀ n, env.lastSeenId = some n → n ≠ 0 → env.latest.id ≤ n →
      (∀ u p, Effect.webhookPost u p ∉ (POST env (RequestBody.jsonBody v)).2) ∧
      (POST env (RequestBody.jsonBody v)).1 =
        RouteResponse.statusJson 200
          { success := true, error := none
          , lastSeenId := env.lastSeenId, latestAnnouncement := env.latest }) := by
  constructor
  · rw [POST_eq env v fid hfid, POSTspec_trace,
      ← newAnnouncementCheck_iff env.lastSeenId env.latest.id]
    by_cases hck : newAnnouncementCheck env.lastSeenId env.latest.id = true
    · have hmem : Effect.readCachedToken fid ∈ sendTraceSpec env fid := by
        unfold sendTraceSpec
        cases env.cachedToken <;> simp
      simp [hck, List.mem_append, hmem]
    · simp only [Bool.not_eq_true] at hck
      simp [hck]
  · intro n hn hnz hge
    have hck : newAnnouncementCheck env.lastSeenId env.latest.id = false := by
      unfold newAnnouncementCheck
      rw [hn]
      simp [hnz, Nat.not_lt.mpr hge]
    constructor
    · intro u p hmem
      rw [POST_eq env v fid hfid, POSTspec_trace] at hmem
      simp [hck] at hmem
    · rw [POST_eq env v fid hfid, POSTspec_fst]
      simp [hck, okBody]

/-- C1 fails as stated on the code: with a cached last-seen id equal to the
latest announcement id, both 0, the guard `!lastSeenId` is still true (0 is
falsy in JavaScript) and a webhook POST occurs. -/
theorem announcements_send_guard_counterexample :
    envZero.lastSeenId = some envZero.latest.id ∧
    Effect.webhookPost "wh" (notificationPayload envZero "tok" envZero.latest)
      ∈ (POST envZero reqFid1).2 := by
  exact ⟨rfl, by decide⟩

/-- Witness for the amended C1 at a concrete environment. -/
theorem announcements_send_guard_witness :
    announcementRequestSchema (Json.obj [("fid", Json.num 1)]) = some 1 ∧
    (((Effect.readCachedToken 1
        ∈ (POST envSeen (RequestBody.jsonBody (Json.obj [("fid", Json.num 1)]))).2) ↔
      (envSeen.lastSeenId = none ∨ envSeen.lastSeenId = some 0 ∨
        ∃ n, envSeen.lastSeenId = some n ∧ n < envSeen.latest.id)) ∧
    (∀ n, envSeen.lastSeenId = some n → n ≠ 0 → envSeen.latest.id ≤ n →
      (∀ u p, Effect.webhookPost u p
          ∉ (POST envSeen (RequestBody.jsonBody (Json.obj [("fid", Json.num 1)]))).2) ∧
      (POST envSeen (RequestBody.jsonBody (Json.obj [("fid", Json.num 1)]))).1 =
        RouteResponse.statusJson 200
          { success := true, error := none
          , lastSeenId := envSeen.lastSeenId, latestAnnouncement := envSeen.latest })) :=
  ⟨rfl, announcements_send_guard envSeen (Json.obj [("fid", Json.num 1)]) 1 rfl⟩

/-- C2: the stored last-seen id is written (with the latest announcement id)
exactly when the guard passed and the webhook delivery succeeded, i.e. a token
was cached, the response was ok and reported at least one successful token; on
every other path (no cached token, non-ok response, no successful tokens, a
thrown error, or no new announcement) the stored id is left unchanged. -/
theorem lastSeen_update_iff_delivery (env : Env) (v : Json) (fid : Int)
    (hfid : announcementRequestSchema v = some fid) :
    ((Effect.setLastSeen fid env.latest.id ∈ (POST env (RequestBody.jsonBody v)).2) ↔
      (newAnnouncementCheck env.lastSeenId env.latest.id
        && deliverySucceeded env) = true) ∧
    ((newAnnouncementCheck env.lastSeenId env.latest.id
        && deliverySucceeded env) = false →
      lastSeenAfter env (RequestBody.jsonBody v) = env.lastSeenId) := by
  constructor
  · rw [POST_eq env v fid hfid, POSTspec_trace]
    by_cases hck : newAnnouncementCheck env.lastSeenId env.latest.id = true
    · by_cases hd : deliverySucceeded env = true
      · simp [hck, hd]
      · have hns := sendTraceSpec_no_set env fid
        simp only [Bool.not_eq_true] at hd
        simp [hck, hd]
        intro hmem
        exact absurd rfl (hns _ hmem fid env.latest.id)
    · simp only [Bool.not_eq_true] at hck
      simp [hck]
  · intro h
    rw [lastSeenAfter_eq env v fid hfid, h]
    rfl

/-- Witness for C2 at a concrete environment where delivery succeeds. -/
theorem lastSeen_update_iff_delivery_witness :
    announcementRequestSchema (Json.obj [("fid", Json.num 1)]) = some 1 ∧
    (((Effect.setLastSeen 1 envZero.latest.id
        ∈ (POST envZero (RequestBody.jsonBody (Json.obj [("fid", Json.num 1)]))).2) ↔
      (newAnnouncementCheck envZero.lastSeenId envZero.latest.id
        && deliverySucceeded envZero) = true) ∧
    ((newAnnouncementCheck envZero.lastSeenId envZero.latest.id
        && deliverySucceeded envZero) = false →
      lastSeenAfter envZero (RequestBody.jsonBody (Json.obj [("fid", Json.num 1)]))
        = envZero.lastSeenId)) :=
  ⟨rfl, lastSeen_update_iff_delivery envZero (Json.obj [("fid", Json.num 1)]) 1 rfl⟩

/-- C3: when the webhook response is ok but reports no successful token and a
non-empty rate-limited list, the endpoint answers 429 with the error message
`Rate limited. Please try again later.`, the body still carries the current
lastSeenId and the latest announcement, and the stored last-seen id is not
updated. -/
theorem rate_limited_response (env : Env) (v : Json) (fid : Int)
    (cached : NotificationToken) (r : WebhookResult)
    (hfid : announcementRequestSchema v = some fid)
    (hck : newAnnouncementCheck env.lastSeenId env.latest.id = true)
    (htok : env.cachedToken = some cached)
    (hresp : env.webhook = WebhookOutcome.resp true (some r))
    (hsucc : optLenPos r.successfulTokens = false)
    (hrate : optLenPos r.rateLimitedTokens = true) :
    (POST env (RequestBody.jsonBody v)).1 =
      RouteResponse.statusJson 429
        { success := false, error := some "Rate limited. Please try again later."
        , lastSeenId := env.lastSeenId, latestAnnouncement := env.latest } ∧
    lastSeenAfter env (RequestBody.jsonBody v) = env.lastSeenId := by
  have hd : deliverySucceeded env = false := by
    unfold deliverySucceeded
    rw [htok, hresp]
    simpa using hsucc
  have hr : rateLimitedPath env = true := by
    unfold rateLimitedPath
    rw [htok, hresp]
    simp [hsucc, hrate]
  constructor
  · rw [POST_eq env v fid hfid, POSTspec_fst]
    simp [hck, hd, hr, rateBody]
  · rw [lastSeenAfter_eq env v fid hfid]
    simp [hd]

/-- Witness for C3 at a concrete rate-limited environment. -/
theorem rate_limited_response_witness :
    newAnnouncementCheck envRate.lastSeenId envRate.latest.id = true ∧
    ((POST envRate (RequestBody.jsonBody (Json.obj [("fid", Json.num 1)]))).1 =
      RouteResponse.statusJson 429
        { success := false, error := some "Rate limited. Please try again later."
        , lastSeenId := envRate.lastSeenId, latestAnnouncement := envRate.latest } ∧
    lastSeenAfter envRate (RequestBody.jsonBody (Json.obj [("fid", Json.num 1)]))
      = envRate.lastSeenId) :=
  ⟨rfl, rate_limited_response envRate (Json.obj [("fid", Json.num 1)]) 1
    { token := "tok", url := "wh" }
    { successfulTokens := some [], invalidTokens := none, rateLimitedTokens := some ["tok"] }
    rfl rfl rfl rfl rfl rfl⟩

/-- C4: whenever the parsed webhook response lists invalid tokens, each invalid
token triggers a removal of the user's notification token from both the
Supabase store and the Redis cache, and a failure of that removal is swallowed:
it does not change the endpoint's response. -/
theorem invalid_token_cleanup (env : Env) (v : Json) (fid : Int)
    (cached : NotificationToken) (r : WebhookResult) (l : List String) (t : String)
    (hfid : announcementRequestSchema v = some fid)
    (hck : newAnnouncementCheck env.lastSeenId env.latest.id = true)
    (htok : env.cachedToken = some cached)
    (hresp : env.webhook = WebhookOutcome.resp true (some r))
    (hinv : r.invalidTokens = some l)
    (ht : t ∈ l) :
    Effect.removeTokenSupabase fid ∈ (POST env (RequestBody.jsonBody v)).2 ∧
    Effect.removeTokenRedis fid ∈ (POST env (RequestBody.jsonBody v)).2 ∧
    (∀ b : Bool,
      (POST { env with removalThrows := b } (RequestBody.jsonBody v)).1 =
        (POST env (RequestBody.jsonBody v)).1) := by
  have hcl : ∀ e, e ∈ [Effect.removeTokenSupabase fid, Effect.removeTokenRedis fid] →
      e ∈ cleanupEffects env fid := by
    intro e he
    unfold cleanupEffects
    rw [hresp]
    have hlen : optLenPos r.invalidTokens = true := by
      rw [hinv]
      unfold optLenPos
      simpa using List.length_pos_of_mem ht
    simp only [hlen, if_true, List.mem_flatMap]
    refine ⟨t, ?_, ?_⟩
    · rw [hinv]; simpa using ht
    · rw [removeInvalidToken_eq]; exact he
  have hst : ∀ e, e ∈ [Effect.removeTokenSupabase fid, Effect.removeTokenRedis fid] →
      e ∈ (POST env (RequestBody.jsonBody v)).2 := by
    intro e he
    rw [POST_eq env v fid hfid, POSTspec_trace]
    have hsend : e ∈ sendTraceSpec env fid := by
      unfold sendTraceSpec
      rw [htok]
      simp [hcl e he]
    simp [hck, List.mem_append, hsend]
  refine ⟨hst _ (by simp), hst _ (by simp), fun b => POST_fst_removalThrows env _ b⟩

/-- Witness for C4 at a concrete environment with an invalid token. -/
theorem invalid_token_cleanup_witness :
    envInvalid.webhook = WebhookOutcome.resp true
      (some { successfulTokens := none, invalidTokens := some ["bad"]
            , rateLimitedTokens := none }) ∧
    (Effect.removeTokenSupabase 1
        ∈ (POST envInvalid (RequestBody.jsonBody (Json.obj [("fid", Json.num 1)]))).2 ∧
    Effect.removeTokenRedis 1
        ∈ (POST envInvalid (RequestBody.jsonBody (Json.obj [("fid", Json.num 1)]))).2 ∧
    (∀ b : Bool,
      (POST { envInvalid with removalThrows := b }
          (RequestBody.jsonBody (Json.obj [("fid", Json.num 1)]))).1 =
        (POST envInvalid (RequestBody.jsonBody (Json.obj [("fid", Json.num 1)]))).1)) :=
  ⟨rfl, invalid_token_cleanup envInvalid (Json.obj [("fid", Json.num 1)]) 1
    { token := "tok", url := "wh" }
    { successfulTokens := none, invalidTokens := some ["bad"], rateLimitedTokens := none }
    ["bad"] "bad" rfl rfl rfl rfl rfl (by simp)⟩

/-- C5: a sent announcement notification POSTs a body whose notificationId is
`announcement:` followed by the announcement id, whose title is the
announcement title, whose body is the announcement text, and whose tokens
array holds exactly the single cached token; with no cached token, no webhook
POST is made and the send returns false. -/
theorem notification_payload_shape (env : Env) (fid : Int) (a : Announcement) :
    (∀ cached, env.cachedToken = some cached →
      Effect.webhookPost cached.url
        { notificationId := "announcement:" ++ toString a.id
        , title := a.title
        , body := a.text
        , targetUrl := env.publicUrl
        , tokens := [cached.token] }
        ∈ (sendAnnouncementNotification env fid a).2) ∧
    (env.cachedToken = none →
      sendAnnouncementNotification env fid a =
        (SendOutcome.ok false, [Effect.readCachedToken fid])) := by
  constructor
  · intro cached htok
    rw [send_trace env fid a, htok]
    simp [notificationPayload]
  · intro htok
    simp [sendAnnouncementNotification, htok]

/-- Witness for C5: the concrete payload POSTed in `envZero`, and the
no-token early return. -/
theorem notification_payload_shape_witness :
    Effect.webhookPost "wh"
      { notificationId := "announcement:" ++ toString envZero.latest.id
      , title := envZero.latest.title
      , body := envZero.latest.text
      , targetUrl := envZero.publicUrl
      , tokens := ["tok"] }
      ∈ (sendAnnouncementNotification envZero 1 envZero.latest).2 ∧
    sendAnnouncementNotification { envZero with cachedToken := none } 1 envZero.latest =
      (SendOutcome.ok false, [Effect.readCachedToken 1]) :=
  ⟨(notification_payload_shape envZero 1 envZero.latest).1
      { token := "tok", url := "wh" } rfl,
   (notification_payload_shape { envZero with cachedToken := none } 1 envZero.latest).2 rfl⟩

/-- C6: a POST /api/announcements request performs at most one webhook POST;
there is no retry of a failed or rate-limited delivery within the request. -/
theorem at_most_one_webhook_post (env : Env) (req : RequestBody) :
    countWebhookPosts (POST env req).2 ≤ 1 := by
  cases req with
  | invalidJson => simp [POST, countWebhookPosts]
  | jsonBody v =>
    cases hfid : announcementRequestSchema v with
    | none => simp [POST, hfid, countWebhookPosts]
    | some fid =>
      rw [POST_eq env v fid hfid, POSTspec_trace]
      have hst := countWebhookPosts_sendTraceSpec env fid
      unfold countWebhookPosts at hst ⊢
      by_cases hck : newAnnouncementCheck env.lastSeenId env.latest.id = true <;>
        by_cases hd : deliverySucceeded env = true <;>
          simp [hck, hd, List.countP_append, List.countP_cons, hst]

/-- C7 fails as stated on the code: the debounce effect invokes `fetchQuote`
for a non-empty sell amount even when the review step is not finalized. -/
theorem quote_after_finalize_counterexample :
    SwapApiCall.fetchQuote ∈ (swapDebounceEffect "1" false).2 := by decide

/-- C7 (amended): for every non-empty sell amount the debounce effect, after
its 200 ms delay, fetches a firm quote and then a price, independently of
whether the review step is finalized; and a transaction is submitted via
`sendTransaction` exactly when a firm quote is present. -/
theorem swap_fetch_order (sellAmount : String) (f g : Bool) (q : QuoteResponse)
    (h : sellAmount ≠ "") :
    swapDebounceEffect sellAmount f =
      (200, [SwapApiCall.fetchQuote, SwapApiCall.fetchPrice]) ∧
    swapDebounceEffect sellAmount f = swapDebounceEffect sellAmount g ∧
    executeSwap none = none ∧
    (executeSwap (some q)).isSome = true := by
  refine ⟨?_, rfl, rfl, rfl⟩
  simp [swapDebounceEffect, h]

/-- Witness for the amended C7 at a concrete sell amount and quote. -/
theorem swap_fetch_order_witness :
    ("1" : String) ≠ "" ∧
    (swapDebounceEffect "1" true =
      (200, [SwapApiCall.fetchQuote, SwapApiCall.fetchPrice]) ∧
    swapDebounceEffect "1" true = swapDebounceEffect "1" false ∧
    executeSwap none = none ∧
    (executeSwap (some quoteEx)).isSome = true) :=
  ⟨by decide, swap_fetch_order "1" true false quoteEx (by decide)⟩

/-- C8 fails as stated on the code: for a token whose metadata reports
decimals = 0, `metadata.decimals || 18` falls back to 18 (0 is falsy), so the
formatted balance is the raw balance divided by 10^18, not by 10^0. -/
theorem balance_formatted_counterexample :
    (useTokenBalance (some "0xme") "0xtoken" (some (some 5)) mdZeroDecimals).map
        TokenBalanceModel.balance_formatted
      ≠ some ((5 : ℚ) / (10 : ℚ) ^ (0 : Nat)) := by
  simp only [useTokenBalance, mdZeroDecimals, jsTruthyStr, jsOrDefault, jsOrStr]
  norm_num

/-- C8 (amended): for a successfully fetched balance, the token hook's
balance_formatted equals the raw integer balance divided by 10^decimals, where
decimals defaults to 18 when the metadata omits it or reports 0; the ETH hook
returns the raw wei balance divided by 10^18; and with no wallet address no
fetch happens and the balance stays null.  (JavaScript number arithmetic is
modelled exactly over ℚ.) -/
theorem balance_formatted_amended (address tokenAddress : String)
    (haddr : address ≠ "") (raw ethRaw : Nat) (md : TokenMetadata) :
    (∀ d : Nat, 0 < d →
      (useTokenBalance (some address) tokenAddress (some (some raw))
          { md with decimals := some d }).map TokenBalanceModel.balance_formatted =
        some ((raw : ℚ) / (10 : ℚ) ^ d)) ∧
    ((useTokenBalance (some address) tokenAddress (some (some raw))
        { md with decimals := none }).map TokenBalanceModel.balance_formatted =
      some ((raw : ℚ) / (10 : ℚ) ^ (18 : Nat))) ∧
    ((useTokenBalance (some address) tokenAddress (some (some raw))
        { md with decimals := some 0 }).map TokenBalanceModel.balance_formatted =
      some ((raw : ℚ) / (10 : ℚ) ^ (18 : Nat))) ∧
    ((useEthBalance (some address) ethRaw).map EthBalanceModel.balance_formatted =
      some ((ethRaw : ℚ) / (10 : ℚ) ^ (18 : Nat))) ∧
    useTokenBalance none tokenAddress (some (some raw)) md = none ∧
    useEthBalance none ethRaw = none := by
  refine ⟨?_, ?_, ?_, ?_, rfl, rfl⟩
  · intro d hd
    have hdz : d ≠ 0 := Nat.pos_iff_ne_zero.mp hd
    simp [useTokenBalance, jsTruthyStr, jsOrDefault, haddr, hdz]
  · simp [useTokenBalance, jsTruthyStr, jsOrDefault, haddr]
  · simp [useTokenBalance, jsTruthyStr, jsOrDefault, haddr]
  · simp [useEthBalance, jsTruthyStr, haddr]

/-- Witness for the amended C8 at concrete inputs. -/
theorem balance_formatted_amended_witness :
    ("0xme" : String) ≠ "" ∧
    ((∀ d : Nat, 0 < d →
      (useTokenBalance (some "0xme") "0xtoken" (some (some 7))
          { mdZeroDecimals with decimals := some d }).map
          TokenBalanceModel.balance_formatted =
        some ((7 : ℚ) / (10 : ℚ) ^ d)) ∧
    ((useTokenBalance (some "0xme") "0xtoken" (some (some 7))
        { mdZeroDecimals with decimals := none }).map
        TokenBalanceModel.balance_formatted =
      some ((7 : ℚ) / (10 : ℚ) ^ (18 : Nat))) ∧
    ((useTokenBalance (some "0xme") "0xtoken" (some (some 7))
        { mdZeroDecimals with decimals := some 0 }).map
        TokenBalanceModel.balance_formatted =
      some ((7 : ℚ) / (10 : ℚ) ^ (18 : Nat))) ∧
    ((useEthBalance (some "0xme") 9).map EthBalanceModel.balance_formatted =
      some ((9 : ℚ) / (10 : ℚ) ^ (18 : Nat))) ∧
    useTokenBalance none "0xtoken" (some (some 7)) mdZeroDecimals = none ∧
    useEthBalance none 9 = none) :=
  ⟨by decide, balance_formatted_amended "0xme" "0xtoken" (by decide) 7 9 mdZeroDecimals⟩

/-- C9 fails as stated on the code: with a stored last-seen id 0 equal to the
latest id 0, a write occurs although the previous value was neither absent nor
strictly smaller than the written id. -/
theorem lastSeen_monotone_counterexample :
    Effect.setLastSeen 1 0 ∈ (POST envZero reqFid1).2 ∧
    envZero.lastSeenId = some 0 ∧ envZero.latest.id = 0 ∧
    ¬(envZero.lastSeenId = none ∨
      ∃ n, envZero.lastSeenId = some n ∧ n < envZero.latest.id) := by
  refine ⟨by decide, rfl, rfl, ?_⟩
  rintro (h | ⟨n, hn, hlt⟩)
  · exact Option.noConfusion h
  · have : n = 0 := by
      have h0 : (some 0 : Option Nat) = some n := hn
      exact (Option.some.injEq 0 n ▸ h0).symm
    subst this
    simp [envZero] at hlt

/-- C9 (amended): the stored last-seen id is only ever written with the latest
announcement id, and only when the previous value was absent, zero (falsy), or
strictly smaller; consequently the stored value is monotone non-decreasing
across requests. -/
theorem lastSeen_monotone (env : Env) (v : Json) (fid : Int) (i : Nat)
    (hfid : announcementRequestSchema v = some fid) :
    (Effect.setLastSeen fid i ∈ (POST env (RequestBody.jsonBody v)).2 →
      i = env.latest.id ∧
      (env.lastSeenId = none ∨ env.lastSeenId = some 0 ∨
        ∃ n, env.lastSeenId = some n ∧ n < env.latest.id)) ∧
    (∀ n m : Nat, env.lastSeenId = some n →
      lastSeenAfter env (RequestBody.jsonBody v) = some m → n ≤ m) := by
  constructor
  · intro hmem
    rw [POST_eq env v fid hfid, POSTspec_trace] at hmem
    have hns := sendTraceSpec_no_set env fid
    by_cases hck : newAnnouncementCheck env.lastSeenId env.latest.id = true
    · simp only [hck, if_true, List.mem_append] at hmem
      have hi : i = env.latest.id := by
        rcases hmem with (hmem | hmem) | hmem
        · simp at hmem
        · exact absurd rfl (hns _ hmem fid i)
        · by_cases hd : deliverySucceeded env = true
          · simp [hd] at hmem
            exact hmem
          · simp only [Bool.not_eq_true] at hd
            simp [hd] at hmem
      exact ⟨hi, (newAnnouncementCheck_iff env.lastSeenId env.latest.id).mp hck⟩
    · simp only [Bool.not_eq_true] at hck
      simp [hck] at hmem
  · intro n m hn hafter
    rw [lastSeenAfter_eq env v fid hfid] at hafter
    by_cases hb : (newAnnouncementCheck env.lastSeenId env.latest.id
        && deliverySucceeded env) = true
    · rw [if_pos hb] at hafter
      have hm : m = env.latest.id := by
        exact (Option.some.injEq _ _ ▸ hafter).symm
      subst hm
      have hck : newAnnouncementCheck env.lastSeenId env.latest.id = true :=
        (Bool.and_eq_true _ _ ▸ hb).1
      unfold newAnnouncementCheck at hck
      rw [hn] at hck
      simp only [Bool.or_eq_true, beq_iff_eq, decide_eq_true_eq] at hck
      rcases hck with hck | hck
      · subst hck; exact Nat.zero_le _
      · exact Nat.le_of_lt hck
    · simp only [Bool.not_eq_true] at hb
      rw [if_neg (by simp [hb])] at hafter
      rw [hn] at hafter
      have : n = m := Option.some.injEq n m ▸ hafter
      subst this
      exact Nat.le_refl n

/-- Witness for the amended C9 at a concrete environment. -/
theorem lastSeen_monotone_witness :
    announcementRequestSchema (Json.obj [("fid", Json.num 1)]) = some 1 ∧
    ((Effect.setLastSeen 1 0
        ∈ (POST envZero (RequestBody.jsonBody (Json.obj [("fid", Json.num 1)]))).2 →
      (0 : Nat) = envZero.latest.id ∧
      (envZero.lastSeenId = none ∨ envZero.lastSeenId = some 0 ∨
        ∃ n, envZero.lastSeenId = some n ∧ n < envZero.latest.id)) ∧
    (∀ n m : Nat, envZero.lastSeenId = some n →
      lastSeenAfter envZero (RequestBody.jsonBody (Json.obj [("fid", Json.num 1)]))
        = some m → n ≤ m)) :=
  ⟨rfl, lastSeen_monotone envZero (Json.obj [("fid", Json.num 1)]) 1 0 rfl⟩

/-- C10: a JSON body without a numeric fid gets a 400 validation response and
causes no external reads, writes or webhook POSTs (the trace is empty); a body
that is not parseable JSON gets a 500. -/
theorem invalid_request_handling (env : Env) (v : Json)
    (hv : announcementRequestSchema v = none) :
    POST env (RequestBody.jsonBody v) = (RouteResponse.validationError 400, []) ∧
    POST env RequestBody.invalidJson = (RouteResponse.internalError 500, []) := by
  constructor
  · simp [POST, hv]
  · rfl

/-- Witness for C10 at a body whose fid is a string. -/
theorem invalid_request_handling_witness :
    announcementRequestSchema (Json.obj [("fid", Json.str "x")]) = none ∧
    (POST envZero (RequestBody.jsonBody (Json.obj [("fid", Json.str "x")])) =
      (RouteResponse.validationError 400, []) ∧
    POST envZero RequestBody.invalidJson = (RouteResponse.internalError 500, [])) :=
  ⟨rfl, invalid_request_handling envZero (Json.obj [("fid", Json.str "x")]) rfl⟩

end NativeSwap
